import Mathlib

/-!
Shallow embedding of `src/tools/check.py`, the feature-check driver script of
the repository: it reads the build tool's JSON metadata, enumerates the first
package's declared feature names, and runs the checker subcommand once for the
baseline (no features) and once per non-reserved feature paired with the fixed
auxiliary feature `rt`, aggregating the pass/fail results.

The external world is modelled explicitly:
* `Json` is the structured value produced by the external JSON parser;
  the parser itself (`json.loads`) is an abstract parameter `loads`.
* An execution environment `Exec` maps a child-process argument vector to the
  exit code that process would return.
* Everything the tool does that is observable — lines it prints, subprocesses
  it launches — is recorded as a list of `Event`s, in order.

Python 3 semantics that matter here: `map` is a lazy iterator and `all`
short-circuits at the first falsy element, so `all(map(run, features))` stops
calling `run` after the first failing invocation.  `runAll` embeds exactly
that evaluation order.
-/

namespace CheckPy

/-- Structured values as produced by the external JSON parser (`json.loads`).
Objects keep their fields in document order (Python 3 dicts preserve insertion
order) and are key-distinct as the parser produces them. -/
inductive Json where
  | null
  | bool (b : Bool)
  | num (n : Int)
  | str (s : String)
  | arr (elems : List Json)
  | obj (fields : List (String × Json))
deriving Repr

/-- Python subscript `j[k]` with a string key: succeeds only on a dict that
has the key; any other case raises (`KeyError`/`TypeError`), modelled as
`none`. -/
def Json.get : Json → String → Option Json
  | .obj fields, k => fields.lookup k
  | _, _ => none

/-- Python subscript `j[i]` with an integer index: succeeds only on a list
that is long enough; any other case raises (`IndexError`/`TypeError`),
modelled as `none`. -/
def Json.idx : Json → Nat → Option Json
  | .arr elems, i => elems.get? i
  | _, _ => none

/-- Python `j.keys()`: the key list of a dict in insertion order; raises
(`AttributeError`) on any other value, modelled as `none`. -/
def Json.keys : Json → Option (List String)
  | .obj fields => some (fields.map Prod.fst)
  | _ => none

/-- An observable action of the tool: a line printed to standard output by the
tool itself, or a child process launched (with the exit code it returned).
Output produced by the child itself is the child's, not the tool's, and is
carried inside the `spawn` event. -/
inductive Event where
  | printLine (s : String)
  | spawn (args : List String) (exitCode : Int)
deriving Repr, DecidableEq

/-- An execution environment: the exit code each argument vector would exit
with if launched as a subprocess. -/
abbrev Exec := List String → Int

/-- `run_inner(args)`: print the command line, launch the subprocess, print a
blank line, and report whether the subprocess exited with code 0. -/
def run_inner (exec : Exec) (args : List String) : Bool × List Event :=
  (exec args == 0,
   [Event.printLine ("Running `" ++ String.intercalate " " args ++ "`..."),
    Event.spawn args (exec args),
    Event.printLine ""])

/-- `run(mcu)`: the baseline (empty string) runs `cargo check`; any other
entry runs `cargo check --examples --features=<entry>`. -/
def run (exec : Exec) (mcu : String) : Bool × List Event :=
  if mcu = "" then
    run_inner exec ["cargo", "check"]
  else
    run_inner exec ["cargo", "check", "--examples", "--features=" ++ mcu]

/-- `all(map(run, features))` under Python 3 semantics: `map` is lazy and
`all` short-circuits, so entries after the first failing one are never run.
Returns the aggregate boolean and the concatenated event trace. -/
def runAll (exec : Exec) : List String → Bool × List Event
  | [] => (true, [])
  | mcu :: rest =>
    let r := run exec mcu
    if r.1 then
      let r2 := runAll exec rest
      (r2.1, r.2 ++ r2.2)
    else
      (false, r.2)

/-- The fatal error classes of the run, following the spec's taxonomy:
`metadataParseError` is `json.loads` rejecting the text
(`json.JSONDecodeError`); `schemaError` groups the dynamic-access failures on
a parsed document (`KeyError`/`IndexError`/`TypeError`/`AttributeError` from
`["packages"]`, `[0]`, `["features"]`, `.keys()`). -/
inductive Err where
  | metadataParseError
  | schemaError
deriving Repr, DecidableEq

/-- The key-extraction path of `main` on a parsed document:
`cargo_meta["packages"][0]["features"].keys()`. -/
def featureKeysOf (cargo_meta : Json) : Except Err (List String) :=
  match cargo_meta.get "packages" with
  | none => .error .schemaError
  | some packages =>
    match packages.idx 0 with
    | none => .error .schemaError
    | some crate_info =>
      match crate_info.get "features" with
      | none => .error .schemaError
      | some featuresVal =>
        match featuresVal.keys with
        | none => .error .schemaError
        | some ks => .ok ks

/-- The list comprehension of `main`:
`[""] + ["{} rt".format(x) for x in keys if x != "device-selected" and x != "rt"]`. -/
def invocationList (keys : List String) : List String :=
  [""] ++ (keys.filter (fun x => x != "device-selected" && x != "rt")).map
    (fun x => x ++ " rt")

/-- The invocation list `main` builds from a parsed metadata document. -/
def invocationListOf (cargo_meta : Json) : Except Err (List String) :=
  (featureKeysOf cargo_meta).map invocationList

/-- `main()`: parse the captured metadata text, extract the first package's
feature keys, build the invocation list, run every invocation through
`all(map(run, features))`, and `sys.exit(-1)` if the aggregate is false
(exit status 0 otherwise).  The result is the process outcome — an uncaught
fatal error or the final exit code — together with the observable event
trace. -/
def main (loads : String → Option Json) (exec : Exec) (metadataText : String) :
    Except Err Int × List Event :=
  match loads metadataText with
  | none => (.error .metadataParseError, [])
  | some cargo_meta =>
    match invocationListOf cargo_meta with
    | .error e => (.error e, [])
    | .ok features =>
      let r := runAll exec features
      (if r.1 then .ok 0 else .ok (-1), r.2)

/-- The argument vector `run` launches for a given invocation-list entry. -/
def cmdOf (mcu : String) : List String :=
  if mcu = "" then
    ["cargo", "check"]
  else
    ["cargo", "check", "--examples", "--features=" ++ mcu]

/-- The three observable events of one executed invocation: the `Running`
line, the subprocess itself, the trailing blank line. -/
def invBlock (exec : Exec) (args : List String) : List Event :=
  [Event.printLine ("Running `" ++ String.intercalate " " args ++ "`..."),
   Event.spawn args (exec args),
   Event.printLine ""]

/-- The argument vectors of the subprocesses launched in a trace, in order. -/
def spawnedCmds (events : List Event) : List (List String) :=
  events.filterMap fun e =>
    match e with
    | .spawn args _ => some args
    | _ => none

/-- The exit codes of the subprocesses launched in a trace, in order. -/
def spawnExitCodes (events : List Event) : List Int :=
  events.filterMap fun e =>
    match e with
    | .spawn _ code => some code
    | _ => none

/-- The entries of an invocation list that actually get attempted under the
short-circuiting loop: every entry up to and including the first failing one
(the whole list when none fails). -/
def attemptedOf (exec : Exec) : List String → List String
  | [] => []
  | mcu :: rest =>
    if exec (cmdOf mcu) = 0 then mcu :: attemptedOf exec rest else [mcu]

/-- A sample parsed metadata document: the first package declares the features
`device-selected`, `rt`, `stm32f042` (in that order). -/
def sampleDoc : Json :=
  Json.obj [("packages", Json.arr [Json.obj
    [("name", Json.str "stm32f0xx-hal"),
     ("features", Json.obj
       [("device-selected", Json.arr []),
        ("rt", Json.arr [Json.str "cortex-m-rt"]),
        ("stm32f042", Json.arr [Json.str "device-selected"])])]])]

/-- A second sample document with the same feature keys as `sampleDoc` but a
different package name, different sub-feature values and an extra trailing
package. -/
def sampleDoc2 : Json :=
  Json.obj [("packages", Json.arr
    [Json.obj
      [("name", Json.str "other-crate"),
       ("features", Json.obj
         [("device-selected", Json.arr [Json.str "something-else"]),
          ("rt", Json.arr []),
          ("stm32f042", Json.arr [])])],
     Json.obj [("name", Json.str "trailing"),
               ("features", Json.obj [("zzz", Json.arr [])])]]),
    ("workspace_root", Json.str "/tmp/elsewhere")]

/-- A sample document whose `packages` sequence is empty. -/
def emptyPackagesDoc : Json :=
  Json.obj [("packages", Json.arr [])]

/-- A sample document whose first package declares the two reserved features
and the two plain features `a` and `b`, in that order. -/
def fourFeatureDoc : Json :=
  Json.obj [("packages", Json.arr [Json.obj
    [("features", Json.obj
       [("device-selected", Json.arr []),
        ("rt", Json.arr []),
        ("a", Json.arr []),
        ("b", Json.arr [])])]])]

/-- A sample document whose first package declares only the two reserved
features. -/
def reservedOnlyDoc : Json :=
  Json.obj [("packages", Json.arr [Json.obj
    [("features", Json.obj
       [("device-selected", Json.arr []),
        ("rt", Json.arr [])])]])]

/-- A sample document whose first package declares the single feature `a`. -/
def oneFeatureDoc : Json :=
  Json.obj [("packages", Json.arr [Json.obj
    [("features", Json.obj [("a", Json.arr [])])]])]

/-! Core lemmas about the loop, shared by several claim theorems. -/

/-- `run` launches exactly `cmdOf mcu` and its events are that command's
block. -/
theorem run_eq (exec : Exec) (mcu : String) :
    run exec mcu = ((exec (cmdOf mcu) == 0), invBlock exec (cmdOf mcu)) := by
  unfold run cmdOf run_inner invBlock
  split <;> rfl

/-- The trace of the short-circuiting loop is the concatenation of the blocks
of the attempted entries, in list order. -/
theorem runAll_events (exec : Exec) (fs : List String) :
    (runAll exec fs).2 =
      ((attemptedOf exec fs).map (fun m => invBlock exec (cmdOf m))).flatten := by
  induction fs with
  | nil => rfl
  | cons m rest ih =>
    simp only [runAll, attemptedOf, run_eq]
    by_cases h : exec (cmdOf m) = 0
    · simp [h, ih]
    · simp [h]

/-- The attempted entries are an initial segment of the invocation list. -/
theorem attemptedOf_take (exec : Exec) (fs : List String) :
    ∃ k, attemptedOf exec fs = fs.take k := by
  induction fs with
  | nil => exact ⟨0, rfl⟩
  | cons m rest ih =>
    obtain ⟨k, hk⟩ := ih
    by_cases h : exec (cmdOf m) = 0
    · exact ⟨k + 1, by simp [attemptedOf, h, hk]⟩
    · exact ⟨1, by simp [attemptedOf, h]⟩

/-- The loop's aggregate boolean is true exactly when every entry's command
would exit with code 0. -/
theorem runAll_fst_iff (exec : Exec) (fs : List String) :
    (runAll exec fs).1 = true ↔ ∀ m ∈ fs, exec (cmdOf m) = 0 := by
  induction fs with
  | nil => simp [runAll]
  | cons m rest ih =>
    simp only [runAll, run_eq]
    by_cases h : exec (cmdOf m) = 0
    · simp [h, ih]
    · simp [h]

/-- The loop's aggregate boolean equals "every spawned subprocess in the trace
exited with code 0". -/
theorem runAll_fst_eq_codes (exec : Exec) (fs : List String) :
    (runAll exec fs).1 =
      (spawnExitCodes (runAll exec fs).2).all (fun c => c == 0) := by
  induction fs with
  | nil => rfl
  | cons m rest ih =>
    simp only [runAll, run_eq]
    by_cases h : exec (cmdOf m) = 0
    · simp [spawnExitCodes, invBlock, h, List.filterMap_append, ih]
    · simp [spawnExitCodes, invBlock, h]

/-- Reduction of `main` once parsing and extraction succeed. -/
theorem main_eq (loads : String → Option Json) (exec : Exec) (text : String)
    (doc : Json) (features : List String)
    (hload : loads text = some doc)
    (hlist : invocationListOf doc = .ok features) :
    main loads exec text =
      (if (runAll exec features).1 then .ok 0 else .ok (-1),
       (runAll exec features).2) := by
  simp only [main, hload, hlist]

/-- Every failure of the extraction path is a `schemaError`. -/
theorem featureKeysOf_error (doc : Json) (e : Err)
    (h : featureKeysOf doc = .error e) : e = Err.schemaError := by
  unfold featureKeysOf at h
  repeat' split at h
  all_goals simp_all

/-- The subprocesses of a concatenation of per-entry blocks are exactly the
entries' commands. -/
theorem spawnedCmds_flatten_blocks (exec : Exec) (l : List String) :
    spawnedCmds ((l.map (fun m => invBlock exec (cmdOf m))).flatten) =
      l.map cmdOf := by
  induction l with
  | nil => rfl
  | cons m rest ih =>
    simp only [List.map_cons, List.flatten_cons, spawnedCmds,
      List.filterMap_append] at ih ⊢
    rw [ih]
    rfl

/-! Claim theorems. -/

/-- C1: whenever the first package's feature mapping has key list `ks`, the
invocation list built by `main` is exactly the baseline entry (the empty
string) followed by one entry `x ++ " rt"` per key `x` of `ks` other than
`"device-selected"` and `"rt"`, in key order; in particular, for the key list
`device-selected, rt, a, b` the list is `["", "a rt", "b rt"]`, and for a
mapping with only the two reserved keys it is `[""]`. -/
theorem c1_invocation_list :
    (∀ (doc : Json) (ks : List String), featureKeysOf doc = .ok ks →
      invocationListOf doc =
        .ok ("" ::
          (ks.filter (fun x => x != "device-selected" && x != "rt")).map
            (fun x => x ++ " rt"))) ∧
    invocationListOf fourFeatureDoc = .ok ["", "a rt", "b rt"] ∧
    invocationListOf reservedOnlyDoc = .ok [""] := by
  refine ⟨fun doc ks h => ?_, rfl, rfl⟩
  simp [invocationListOf, h, Except.map, invocationList]

/-- C1 witness: the general part of `c1_invocation_list` applied to
`sampleDoc`, whose feature keys are `device-selected, rt, stm32f042`. -/
theorem c1_invocation_list_witness :
    invocationListOf sampleDoc =
      .ok ("" ::
        ((["device-selected", "rt", "stm32f042"].filter
          (fun x => x != "device-selected" && x != "rt")).map
            (fun x => x ++ " rt"))) :=
  c1_invocation_list.1 sampleDoc ["device-selected", "rt", "stm32f042"] rfl

/-- C4: the baseline entry (empty text) launches exactly `cargo check`, which
carries neither the `--examples` flag nor any `--features=` argument, and a
non-baseline entry `mcu` launches exactly
`cargo check --examples --features=<mcu>`, which carries the `--examples`
flag and the feature-selection argument `--features= ++ mcu`. -/
theorem c4_command_shape (exec : Exec) (mcu : String) (h : mcu ≠ "") :
    spawnedCmds (run exec "").2 = [["cargo", "check"]] ∧
    "--examples" ∉ (["cargo", "check"] : List String) ∧
    (∀ v : String, ("--features=" ++ v) ∉ (["cargo", "check"] : List String)) ∧
    spawnedCmds (run exec mcu).2 =
      [["cargo", "check", "--examples", "--features=" ++ mcu]] ∧
    "--examples" ∈
      (["cargo", "check", "--examples", "--features=" ++ mcu] : List String) ∧
    ("--features=" ++ mcu) ∈
      (["cargo", "check", "--examples", "--features=" ++ mcu] : List String) := by
  refine ⟨rfl, by decide, fun v => ?_, ?_, ?_, ?_⟩
  · intro hv
    have h11 : ("--features=" : String).length = 11 := rfl
    have hlen : ∀ s : String, "--features=" ++ v = s → 11 ≤ s.length := by
      intro s hs
      have hc := congrArg String.length hs
      rw [String.length_append] at hc
      omega
    simp only [List.mem_cons, List.not_mem_nil, or_false] at hv
    rcases hv with hv | hv
    · exact absurd (hlen "cargo" hv) (by decide)
    · exact absurd (hlen "check" hv) (by decide)
  · unfold run
    rw [if_neg h]
    rfl
  · simp
  · simp

/-- C4 witness: `c4_command_shape` at the concrete entry `"stm32f042 rt"`. -/
theorem c4_command_shape_witness :
    spawnedCmds (run (fun _ => 0) "stm32f042 rt").2 =
      [["cargo", "check", "--examples", "--features=stm32f042 rt"]] :=
  (c4_command_shape (fun _ => 0) "stm32f042 rt" (by decide)).2.2.2.1

/-- C5: whenever the metadata text is rejected by the parser, `main` aborts
with a `metadataParseError` and an empty event trace, so zero check
invocations are executed. -/
theorem c5_parse_error (loads : String → Option Json) (exec : Exec)
    (text : String) (h : loads text = none) :
    main loads exec text = (.error .metadataParseError, []) ∧
    spawnedCmds (main loads exec text).2 = [] := by
  have hm : main loads exec text = (.error .metadataParseError, []) := by
    simp [main, h]
  refine ⟨hm, ?_⟩
  rw [hm]
  rfl

/-- C5 witness: `c5_parse_error` on a parser that rejects the text. -/
theorem c5_parse_error_witness :
    main (fun _ => none) (fun _ => 0) "not json" =
      (.error .metadataParseError, []) :=
  (c5_parse_error (fun _ => none) (fun _ => 0) "not json" rfl).1

/-- C6: whenever the parsed document has no `packages` key, or its `packages`
sequence is empty, or its first package lacks the `features` field, `main`
aborts with a `schemaError` and an empty event trace, so no check invocation
is attempted. -/
theorem c6_schema_error (loads : String → Option Json) (exec : Exec)
    (text : String) (doc : Json)
    (hload : loads text = some doc)
    (h : doc.get "packages" = none ∨
         doc.get "packages" = some (Json.arr []) ∨
         (∃ p ps, doc.get "packages" = some (Json.arr (p :: ps)) ∧
            p.get "features" = none)) :
    main loads exec text = (.error .schemaError, []) ∧
    spawnedCmds (main loads exec text).2 = [] := by
  have hk : featureKeysOf doc = .error .schemaError := by
    rcases h with h | h | ⟨p, ps, h, hp⟩
    · simp [featureKeysOf, h]
    · simp [featureKeysOf, h, Json.idx]
    · simp [featureKeysOf, h, Json.idx, hp]
  have hm : main loads exec text = (.error .schemaError, []) := by
    simp [main, hload, invocationListOf, Except.map, hk]
  refine ⟨hm, ?_⟩
  rw [hm]
  rfl

/-- C6 witness: `c6_schema_error` on a document with an empty `packages`
sequence. -/
theorem c6_schema_error_witness :
    main (fun _ => some emptyPackagesDoc) (fun _ => 0) "{}" =
      (.error .schemaError, []) :=
  (c6_schema_error (fun _ => some emptyPackagesDoc) (fun _ => 0) "{}"
    emptyPackagesDoc rfl (Or.inr (Or.inl rfl))).1

/-- C2 counterexample: with a single declared feature `a` the invocation list
is `["", "a rt"]`, yet in an environment where every subprocess exits 1 only
the baseline command is ever launched — the entry `"a rt"` is never attempted,
so a failing invocation does prevent later entries from executing. -/
theorem c2_counterexample :
    invocationListOf oneFeatureDoc = .ok ["", "a rt"] ∧
    spawnedCmds (main (fun _ => some oneFeatureDoc) (fun _ => 1) "").2 =
      [["cargo", "check"]] ∧
    ["cargo", "check", "--examples", "--features=a rt"] ∉
      spawnedCmds (main (fun _ => some oneFeatureDoc) (fun _ => 1) "").2 := by
  refine ⟨rfl, rfl, ?_⟩
  intro hmem
  rw [show spawnedCmds (main (fun _ => some oneFeatureDoc) (fun _ => 1) "").2 =
      [["cargo", "check"]] from rfl] at hmem
  simp at hmem

/-- C2 amended: entries of the invocation list are attempted exactly once
each, in list order, up to and including the first failing entry; a failing
invocation prevents every later entry from being executed (the whole list is
attempted only when no entry fails). -/
theorem c2_attempt_policy (loads : String → Option Json) (exec : Exec)
    (text : String) (doc : Json) (features : List String)
    (hload : loads text = some doc)
    (hlist : invocationListOf doc = .ok features) :
    spawnedCmds (main loads exec text).2 =
      (attemptedOf exec features).map cmdOf ∧
    ∃ k, attemptedOf exec features = features.take k := by
  have hm := main_eq loads exec text doc features hload hlist
  constructor
  · rw [hm]
    show spawnedCmds (runAll exec features).2 = _
    rw [runAll_events, spawnedCmds_flatten_blocks]
  · exact attemptedOf_take exec features

/-- C2 amended witness: `c2_attempt_policy` on the single-feature document in
an all-failing environment. -/
theorem c2_attempt_policy_witness :
    spawnedCmds (main (fun _ => some oneFeatureDoc) (fun _ => 1) "meta").2 =
      (attemptedOf (fun _ => 1) ["", "a rt"]).map cmdOf ∧
    ∃ k, attemptedOf (fun _ => 1) ["", "a rt"] =
      (["", "a rt"] : List String).take k :=
  c2_attempt_policy (fun _ => some oneFeatureDoc) (fun _ => 1) "meta"
    oneFeatureDoc ["", "a rt"] rfl rfl

/-- C3: once parsing and extraction succeed, the final exit status is 0
exactly when every launched subprocess exited with code 0, and the only other
possible outcome is the exit value -1 (observed as 255). -/
theorem c3_exit_status (loads : String → Option Json) (exec : Exec)
    (text : String) (doc : Json) (features : List String)
    (hload : loads text = some doc)
    (hlist : invocationListOf doc = .ok features) :
    ((main loads exec text).1 = .ok 0 ↔
      (spawnExitCodes (main loads exec text).2).all (fun c => c == 0) = true) ∧
    ((main loads exec text).1 = .ok 0 ∨ (main loads exec text).1 = .ok (-1)) := by
  have hm := main_eq loads exec text doc features hload hlist
  rw [hm]
  have hc := runAll_fst_eq_codes exec features
  constructor
  · show (if (runAll exec features).1 then Except.ok 0 else Except.ok (-1)) =
        Except.ok 0 ↔ _
    rw [← hc]
    by_cases hb : (runAll exec features).1 = true
    · simp [hb]
    · simp [hb]
  · by_cases hb : (runAll exec features).1 = true
    · left
      show (if (runAll exec features).1 then Except.ok 0 else Except.ok (-1)) =
          Except.ok 0
      simp [hb]
    · right
      show (if (runAll exec features).1 then Except.ok 0 else Except.ok (-1)) =
          Except.ok (-1)
      simp [hb]

/-- C3 witness: `c3_exit_status` on the sample document in an all-succeeding
environment. -/
theorem c3_exit_status_witness :
    ((main (fun _ => some sampleDoc) (fun _ => 0) "meta").1 = .ok 0 ↔
      (spawnExitCodes
        (main (fun _ => some sampleDoc) (fun _ => 0) "meta").2).all
          (fun c => c == 0) = true) ∧
    ((main (fun _ => some sampleDoc) (fun _ => 0) "meta").1 = .ok 0 ∨
      (main (fun _ => some sampleDoc) (fun _ => 0) "meta").1 = .ok (-1)) :=
  c3_exit_status (fun _ => some sampleDoc) (fun _ => 0) "meta" sampleDoc
    ["", "stm32f042 rt"] rfl rfl

/-- C7: within one run no invocation is retried: the sequence of launched
commands is an initial segment of the invocation list's command sequence, so
each entry's subprocess is launched at most once, in list order. -/
theorem c7_no_retry (loads : String → Option Json) (exec : Exec)
    (text : String) (doc : Json) (features : List String)
    (hload : loads text = some doc)
    (hlist : invocationListOf doc = .ok features) :
    ∃ k, spawnedCmds (main loads exec text).2 = (features.map cmdOf).take k := by
  have hm := main_eq loads exec text doc features hload hlist
  obtain ⟨k, hk⟩ := attemptedOf_take exec features
  refine ⟨k, ?_⟩
  rw [hm]
  show spawnedCmds (runAll exec features).2 = _
  rw [runAll_events, spawnedCmds_flatten_blocks, hk, List.map_take]

/-- C7 witness: `c7_no_retry` on the sample document in an all-succeeding
environment. -/
theorem c7_no_retry_witness :
    ∃ k, spawnedCmds (main (fun _ => some sampleDoc) (fun _ => 0) "meta").2 =
      ((["", "stm32f042 rt"] : List String).map cmdOf).take k :=
  c7_no_retry (fun _ => some sampleDoc) (fun _ => 0) "meta" sampleDoc
    ["", "stm32f042 rt"] rfl rfl

/-- C8: the run's observable behaviour depends only on the first package's
feature-name keys: two successfully parsed documents with the same key list
(same names, same order) yield identical outcomes and event traces, whatever
their other packages, sub-feature values or other fields. -/
theorem c8_keys_determine_run (exec : Exec)
    (loads1 loads2 : String → Option Json) (text1 text2 : String)
    (doc1 doc2 : Json) (ks : List String)
    (h1 : loads1 text1 = some doc1) (h2 : loads2 text2 = some doc2)
    (hk1 : featureKeysOf doc1 = .ok ks) (hk2 : featureKeysOf doc2 = .ok ks) :
    main loads1 exec text1 = main loads2 exec text2 := by
  have e1 : invocationListOf doc1 = .ok (invocationList ks) := by
    simp [invocationListOf, hk1, Except.map]
  have e2 : invocationListOf doc2 = .ok (invocationList ks) := by
    simp [invocationListOf, hk2, Except.map]
  rw [main_eq loads1 exec text1 doc1 _ h1 e1,
      main_eq loads2 exec text2 doc2 _ h2 e2]

/-- C8 witness: `sampleDoc` and `sampleDoc2` share the feature keys
`device-selected, rt, stm32f042` but differ in package name, sub-feature
values, a trailing package and an extra field; the runs coincide. -/
theorem c8_keys_determine_run_witness :
    main (fun _ => some sampleDoc) (fun _ => 0) "meta one" =
      main (fun _ => some sampleDoc2) (fun _ => 0) "meta two" :=
  c8_keys_determine_run (fun _ => 0) (fun _ => some sampleDoc)
    (fun _ => some sampleDoc2) "meta one" "meta two" sampleDoc sampleDoc2
    ["device-selected", "rt", "stm32f042"] rfl rfl rfl rfl

/-- C9: the tool's own output is exactly one block per executed invocation —
the line `Running `<command and arguments>`...` (arguments joined by single
spaces) before the subprocess is launched and one blank line after it
completes — for an initial segment of the invocation list, and nothing
else. -/
theorem c9_output_shape (loads : String → Option Json) (exec : Exec)
    (text : String) (doc : Json) (features : List String)
    (hload : loads text = some doc)
    (hlist : invocationListOf doc = .ok features) :
    ∃ k, (main loads exec text).2 =
      ((features.take k).map (fun m =>
        [Event.printLine ("Running `" ++
            String.intercalate " " (cmdOf m) ++ "`..."),
         Event.spawn (cmdOf m) (exec (cmdOf m)),
         Event.printLine ""])).flatten := by
  have hm := main_eq loads exec text doc features hload hlist
  obtain ⟨k, hk⟩ := attemptedOf_take exec features
  refine ⟨k, ?_⟩
  rw [hm]
  show (runAll exec features).2 = _
  rw [runAll_events, hk]
  rfl

/-- C9 witness: `c9_output_shape` on the sample document in an all-succeeding
environment. -/
theorem c9_output_shape_witness :
    ∃ k, (main (fun _ => some sampleDoc) (fun _ => 0) "meta").2 =
      (((["", "stm32f042 rt"] : List String).take k).map (fun m =>
        [Event.printLine ("Running `" ++
            String.intercalate " " (cmdOf m) ++ "`..."),
         Event.spawn (cmdOf m) ((fun _ => (0 : Int)) (cmdOf m)),
         Event.printLine ""])).flatten :=
  c9_output_shape (fun _ => some sampleDoc) (fun _ => 0) "meta" sampleDoc
    ["", "stm32f042 rt"] rfl rfl

/-- C10: once parsing and extraction succeed, the invocation list is
non-empty and starts with the baseline entry, and the first subprocess that
gets launched is always the baseline `cargo check` — also when the package
declares no features at all. -/
theorem c10_baseline_first (loads : String → Option Json) (exec : Exec)
    (text : String) (doc : Json) (features : List String)
    (hload : loads text = some doc)
    (hlist : invocationListOf doc = .ok features) :
    features ≠ [] ∧ features.head? = some "" ∧
    (spawnedCmds (main loads exec text).2).head? = some ["cargo", "check"] := by
  obtain ⟨ks, hks, hfeat⟩ :
      ∃ ks, featureKeysOf doc = .ok ks ∧ features = invocationList ks := by
    unfold invocationListOf at hlist
    cases hfk : featureKeysOf doc with
    | error e => rw [hfk] at hlist; simp [Except.map] at hlist
    | ok ks =>
      rw [hfk] at hlist
      simp [Except.map] at hlist
      exact ⟨ks, rfl, hlist.symm⟩
  have hm := main_eq loads exec text doc features hload hlist
  subst hfeat
  refine ⟨by simp [invocationList], by simp [invocationList], ?_⟩
  rw [hm]
  show (spawnedCmds (runAll exec (invocationList ks)).2).head? = _
  rw [runAll_events, spawnedCmds_flatten_blocks]
  show ((attemptedOf exec ("" ::
    (ks.filter (fun x => x != "device-selected" && x != "rt")).map
      (fun x => x ++ " rt"))).map cmdOf).head? = _
  unfold attemptedOf
  by_cases h0 : exec ["cargo", "check"] = 0
  · simp [cmdOf, h0]
  · simp [cmdOf, h0]

/-- C10 witness: `c10_baseline_first` on the reserved-only document, whose
invocation list is just the baseline. -/
theorem c10_baseline_first_witness :
    ([""] : List String) ≠ [] ∧ ([""] : List String).head? = some "" ∧
    (spawnedCmds
      (main (fun _ => some reservedOnlyDoc) (fun _ => 0) "meta").2).head? =
        some ["cargo", "check"] :=
  c10_baseline_first (fun _ => some reservedOnlyDoc) (fun _ => 0) "meta"
    reservedOnlyDoc [""] rfl rfl

end CheckPy
